import Mathlib

/-!
Verification development for the zsim DRAM-cache memory-controller core.

The definitions below are shallow embeddings of the C++ source:
  * src/mc.cpp              (MemoryController: access, mapPage)
  * src/cache/ndc.cpp/.h    (NDCScheme: access, address codec)
  * src/cache/alloy.cpp     (AlloyCacheScheme: access, period)
  * src/cache/banshee.cpp   (TagBuffer: insert, clearTagBuffer, updateLRU)
  * src/cache/chamo.cpp     (CHAMOScheme: _UpdateMapLimit, _RankToAddr,
                             _HashIdxToAddr)
  * src/cache/hash/hash.cpp (XXHash, NextLineHash)

Machine integers are modelled as Nat with explicit reductions modulo
2 ^ 64 where C++ overflow semantics matter.  Fatal assertions (the
repository's assert / panic macros) are modelled by Option: a failed
assertion yields none.  External DRAM timing devices are opaque
functions from a device request to a response cycle, exactly the
interface the core consumes.
-/

namespace ZSim

/-- Request types of MemReq (memory_hierarchy.h): GETS, GETX, PUTS, PUTX. -/
inductive AccessKind where
  | gets
  | getx
  | puts
  | putx
deriving DecidableEq, Repr

/-- Coarse request class computed at the top of every scheme access:
LOAD for GETS/GETX, STORE for PUTS/PUTX. -/
inductive ReqClass where
  | load
  | store
deriving DecidableEq, Repr

/-- MESI coherence states written through req.state. -/
inductive MESIState where
  | I
  | S
  | E
  | M
deriving DecidableEq, Repr

/-- Translation of the request-class computation
`(req.type == GETS || req.type == GETX) ? LOAD : STORE`. -/
def reqClassOf (t : AccessKind) : ReqClass :=
  if t = AccessKind.gets ∨ t = AccessKind.getx then ReqClass.load else ReqClass.store

/-- A memory request as the schemes consume it: line address, type,
request cycle, and the NOEXCL flag used for the GETS state update. -/
structure MemReq where
  lineAddr : Nat
  type : AccessKind
  cycle : Nat
  noexcl : Bool
deriving DecidableEq, Repr

/-- One call to DramDevice::access: address, request type, request
cycle, chaining mode (0 fresh chain, 1 append critical, 2 sibling) and
burst count. -/
structure DevReq where
  addr : Nat
  rtype : AccessKind
  cycle : Nat
  chain : Nat
  bursts : Nat
deriving DecidableEq, Repr

/-- Identity of the device a request was issued to: one of the MC-DRAM
devices (by index) or the external DRAM. -/
inductive DevId where
  | mcdram (idx : Nat)
  | extDram
deriving DecidableEq, Repr

/-- A recorded device access event. -/
structure DevEvent where
  dev : DevId
  req : DevReq
deriving DecidableEq, Repr

/-- A DRAM timing device, abstracted to the single entry point the core
uses: it maps an access request to a response cycle. -/
def Dram : Type := DevReq → Nat

/-- Well-behaved device: the response cycle is never below the request
cycle (spec error kind DeviceFailure outlaws the opposite). -/
def DramMono (d : Dram) : Prop := ∀ r : DevReq, r.cycle ≤ d r

/-- One way of a tag-array set: tag, valid bit, dirty bit
(cache_utils.h). -/
structure Way where
  tag : Nat
  valid : Bool
  dirty : Bool
deriving DecidableEq, Repr

instance : Inhabited Way := ⟨{ tag := 0, valid := false, dirty := false }⟩

/-- A tag array is a list of sets, each a list of ways. -/
def TagArray : Type := List (List Way)

/-- Way lookup with the all-invalid default used for out-of-range
indices (never reached on well-formed states). -/
def wayAt (c : TagArray) (s w : Nat) : Way :=
  ((c.getD s []).getD w { tag := 0, valid := false, dirty := false })

/-- Replacement of one way inside one set of a tag array. -/
def setWayAt (c : TagArray) (s w : Nat) (e : Way) : TagArray :=
  c.set s ((c.getD s []).set w e)

/-! ### ds_index update (alloy.cpp line 178, banshee.cpp line 245,
chamo.cpp line 446, ndc.cpp line 229)

Every scheme's period() ends with the same line:

  _ds_index = ((int64_t)_ds_index + delta_index <= 0) ? 0 : _ds_index + delta_index;

delta_index itself is produced by a floating-point bandwidth formula;
the claims quantify over its value, so it enters the model as an
arbitrary signed integer. -/

/-- Translation of the final ds_index assignment of every scheme's
period(): zero when the signed sum is non-positive, otherwise the
plain (unclamped) sum. -/
def dsIndexUpdate (dsIndex : Nat) (delta : Int) : Nat :=
  if (dsIndex : Int) + delta ≤ 0 then 0 else ((dsIndex : Int) + delta).toNat

/-- Statement of the spec's update rule, for comparison:
ds_index := clamp(ds_index + delta, 0, num_sets). -/
def dsIndexUpdateSpec (dsIndex : Nat) (delta : Int) (numSets : Nat) : Nat :=
  min (((dsIndex : Int) + delta).toNat) numSets

/-! ### CHAMO map-limit recomputation (chamo.cpp, _UpdateMapLimit)

  nr_map_limit_ = (((nr_cuckoo_cnt_ * 100 / load_ratio_) + nr_dram_cache_ - 1) / nr_dram_cache_);
  assert(nr_map_limit_ <= dram_ratio_ + 1);
  nr_map_limit_ = std::min(dram_ratio_, nr_map_limit_);
  nr_map_limit_ = std::max(1UL, nr_map_limit_);
  assert(nr_map_limit_ < dram_ratio_);

Asserts are fatal; a failed one is modelled as none. -/

/-- Translation of CHAMOScheme::_UpdateMapLimit.  Arguments are the
fields it reads: hash_metric_.nr_cuckoo_cnt_, load_ratio_,
nr_dram_cache_ and dram_ratio_.  Returns the new nr_map_limit_, or
none when one of the two asserts fires. -/
def updateMapLimit (cuckooCnt loadShare nrDramCache dramRat : Nat) : Option Nat :=
  let raw := (cuckooCnt * 100 / loadShare + nrDramCache - 1) / nrDramCache
  if raw ≤ dramRat + 1 then
    let clamped := max 1 (min dramRat raw)
    if clamped < dramRat then some clamped else none
  else none

/-- Clamp of the spec sentence: the ceiling expression clamped into
the interval from 1 to dram_ratio. -/
def mapLimitSpec (cuckooCnt loadShare nrDramCache dramRat : Nat) : Nat :=
  max 1 (min dramRat ((cuckooCnt * 100 / loadShare + nrDramCache - 1) / nrDramCache))

/-! ### CHAMO cuckoo index (chamo.cpp, hash/hash.cpp) -/

/-- Element of a list of lists, with a default. -/
def get2D {α : Type} (xss : List (List α)) (i j : Nat) (d : α) : α :=
  (xss.getD i []).getD j d

/-- Replacement of one element inside a list of lists. -/
def set2D {α : Type} (xss : List (List α)) (i j : Nat) (e : α) : List (List α) :=
  xss.set i ((xss.getD i []).set j e)

/-- First prime constant of hash.cpp XXHash. -/
def xxPrime1 : Nat := 0x9E3779B185EBCA87

/-- Second prime constant of hash.cpp XXHash. -/
def xxPrime2 : Nat := 0xC2B2AE3D27D4EB4F

/-- Third prime constant of hash.cpp XXHash. -/
def xxPrime3 : Nat := 0x165667B19E3779F9

/-- Translation of XXHash (hash.cpp lines 8-22); uint64 additions and
multiplications reduce modulo 2 ^ 64. -/
def XXHash (key : Nat) : Nat :=
  let k1 := (key + xxPrime1) % 2 ^ 64
  let k2 := k1 ^^^ (k1 >>> 33)
  let k3 := k2 * xxPrime2 % 2 ^ 64
  let k4 := k3 ^^^ (k3 >>> 29)
  let k5 := k4 * xxPrime3 % 2 ^ 64
  k5 ^^^ (k5 >>> 32)

/-- Translation of NextLineHash::Hash: hash index 0 is the identity,
hash index 1 is the next line modulo the bucket count, anything else
hits assert(0). -/
def nextLineHash (nrBucket key hashIdx : Nat) : Option Nat :=
  if hashIdx = 0 then some key
  else if hashIdx = 1 then some ((key + 1) % nrBucket)
  else none

/-- Counters of the CHAMO hash bookkeeping (BitMapHashMetric fields
read or written on the access path). -/
structure ChamoMetric where
  cuckooCnt : Nat
  touchedCnt : Nat
  hashChangeCnt : Nat
deriving DecidableEq, Repr

/-- State of the CHAMO cuckoo index: the fields of CHAMOScheme read by
_RankToAddr and _HashIdxToAddr. -/
structure ChamoSt where
  nrDramCache : Nat
  nrCxlCache : Nat
  nrMapLimit : Nat
  dramOverflowRank : List Nat
  dramSelfContainRank : List Nat
  isCuckooHash : List (List Bool)
  hashIdx : List (List Nat)
  metric : ChamoMetric
deriving DecidableEq, Repr

/-- Translation of CHAMOScheme::_HashIdxToAddr.  Bounds asserts and the
metric assert are fatal (none); the function returns the target address
and the updated state. -/
def hashIdxToAddr (s : ChamoSt) (col level hIdx : Nat) : Option (Nat × ChamoSt) :=
  if level < s.isCuckooHash.length ∧ col < (s.isCuckooHash.getD level []).length then
    let step :=
      if hIdx = 0 ∨ hIdx = 1 then
        let s1 :=
          if ¬ get2D s.isCuckooHash level col false then
            { s with isCuckooHash := set2D s.isCuckooHash level col true,
                     metric := { s.metric with cuckooCnt := s.metric.cuckooCnt + 1 } }
          else s
        (nextLineHash s.nrDramCache col hIdx).map (fun a => (a, s1))
      else if hIdx = 2 then
        let s1 :=
          if get2D s.isCuckooHash level col false then
            { s with isCuckooHash := set2D s.isCuckooHash level col false,
                     metric := { s.metric with cuckooCnt := s.metric.cuckooCnt - 1 } }
          else s
        if col + level * s.nrDramCache < s.nrCxlCache then
          some (XXHash (col + level * s.nrDramCache) % s.nrDramCache, s1)
        else none
      else none
    match step with
    | none => none
    | some (addr, s1) =>
      if s1.metric.cuckooCnt ≤ s1.metric.touchedCnt then
        if level < s1.hashIdx.length ∧ col < (s1.hashIdx.getD level []).length then
          if get2D s1.hashIdx level col 255 ≠ hIdx then
            let m2 := { s1.metric with hashChangeCnt := s1.metric.hashChangeCnt + 1 }
            some (addr, { s1 with hashIdx := set2D s1.hashIdx level col hIdx, metric := m2 })
          else some (addr, s1)
        else none
      else none
  else none

/-- Translation of CHAMOScheme::_RankToAddr.  The overflowRank and
selfContainRank parameters mirror the (unused) C++ parameters; the
function reads the rank arrays directly, exactly as the source does.
Asserts are fatal (none). -/
def rankToAddr (s : ChamoSt) (baseRank overflowRank selfContainRank colAddr level : Nat) :
    Option (Nat × ChamoSt) :=
  let nextColIdx := (colAddr + 1) % s.nrDramCache
  if level < s.isCuckooHash.length ∧ colAddr < (s.isCuckooHash.getD level []).length ∧
      colAddr < s.dramSelfContainRank.length ∧ colAddr < s.dramOverflowRank.length ∧
      nextColIdx < s.dramSelfContainRank.length ∧ nextColIdx < s.dramOverflowRank.length then
    let tIdx : Option Nat :=
      if baseRank ≤ s.dramOverflowRank.getD nextColIdx 0 then
        if baseRank ≤ s.nrMapLimit then some 1 else none
      else if baseRank - s.dramOverflowRank.getD nextColIdx 0 ≤
          s.dramSelfContainRank.getD colAddr 0 then
        if baseRank - s.dramOverflowRank.getD nextColIdx 0 +
            s.dramOverflowRank.getD colAddr 0 ≤ s.nrMapLimit then some 0 else none
      else some 2
    match tIdx with
    | none => none
    | some t => hashIdxToAddr s colAddr level t
  else none

/-- Statement of the spec's hash-index selection rule, for comparison:
index 1 when base ≤ overflow of the next column, else index 0 when
base minus that overflow is within the column's self-contain rank,
else index 2. -/
def targetHashIdxSpec (base ovfNext selfCol : Nat) : Nat :=
  if base ≤ ovfNext then 1 else if base - ovfNext ≤ selfCol then 0 else 2

/-! ### Banshee Tag Buffer (banshee.cpp lines 282-406) -/

/-- One TagBufferEntry: tag, remap flag, LRU counter. -/
structure TagBufferEntry where
  tag : Nat
  remap : Bool
  lru : Nat
deriving DecidableEq, Repr

instance : Inhabited TagBufferEntry := ⟨{ tag := 0, remap := false, lru := 0 }⟩

/-- The Banshee TagBuffer: a small set-associative table plus the
entry_occupied counter. -/
structure TagBuffer where
  numWays : Nat
  numSets : Nat
  sets : List (List TagBufferEntry)
  entryOccupied : Nat
deriving DecidableEq, Repr

/-- Translation of the TagBuffer constructor: 8 ways, tb_size / 8 sets,
each entry starts with remap false, tag 0 and lru equal to its way
index, and entry_occupied starts at 0. -/
def TagBuffer.init (tbSize : Nat) : TagBuffer :=
  let nw := 8
  let ns := tbSize / nw
  { numWays := nw, numSets := ns,
    sets := List.replicate ns ((List.range nw).map fun j => { tag := 0, remap := false, lru := j }),
    entryOccupied := 0 }

/-- Translation of TagBuffer::existInTB: the first way of the tag's set
holding the tag, or num_ways when absent. -/
def TagBuffer.existInTB (tb : TagBuffer) (tag : Nat) : Nat :=
  let setNum := tag % tb.numSets
  match (tb.sets.getD setNum []).findIdx? (fun e => e.tag == tag) with
  | some i => i
  | none => tb.numWays

/-- Translation of TagBuffer::updateLRU: every non-remap entry of the
set whose lru is below the pivot way's lru is aged by one, then the
pivot way's lru becomes 0. -/
def TagBuffer.updateLRU (tb : TagBuffer) (setNum way : Nat) : TagBuffer :=
  let s := tb.sets.getD setNum []
  let pivot := (s.getD way default).lru
  let s1 := s.map fun e => if ¬ e.remap ∧ e.lru < pivot then { e with lru := e.lru + 1 } else e
  let s2 := s1.set way { s1.getD way default with lru := 0 }
  { tb with sets := tb.sets.set setNum s2 }

/-- Replacement-way scan of TagBuffer::insert: the running maximum of
lru over non-remap ways, taking the last way attaining it; none models
the fatal assert(replace_way != _num_ways). -/
def tbReplaceWay (s : List TagBufferEntry) : Option Nat :=
  (s.enum.foldl
    (fun (acc : Nat × Option Nat) p =>
      if ¬ p.2.remap ∧ acc.1 ≤ p.2.lru then (p.2.lru, some p.1) else acc)
    (0, none)).2

/-- Duplicate-tag assertion at the head of TagBuffer::insert: any two
ways of the set hold different tags unless the earlier one is 0. -/
def tbNoDupAssert (s : List TagBufferEntry) : Prop :=
  s.Pairwise fun a b => a.tag ≠ b.tag ∨ a.tag = 0

instance (s : List TagBufferEntry) : Decidable (tbNoDupAssert s) :=
  inferInstanceAs (Decidable (s.Pairwise _))

/-- Translation of TagBuffer::insert.  A fired assert (duplicate tags,
or no non-remap way to evict) yields none. -/
def TagBuffer.insert (tb : TagBuffer) (tag : Nat) (remap : Bool) : Option TagBuffer :=
  let setNum := tag % tb.numSets
  let s := tb.sets.getD setNum []
  let existWay := tb.existInTB tag
  if tbNoDupAssert s then
    if existWay < tb.numWays then
      let e := s.getD existWay default
      if remap then
        let occ := if ¬ e.remap then tb.entryOccupied + 1 else tb.entryOccupied
        some { tb with entryOccupied := occ,
                       sets := tb.sets.set setNum (s.set existWay { e with remap := true }) }
      else
        if ¬ e.remap then some (tb.updateLRU setNum existWay) else some tb
    else
      match tbReplaceWay s with
      | none => none
      | some w =>
        let e := s.getD w default
        let s1 := s.set w { e with tag := tag, remap := remap }
        let tb1 := { tb with sets := tb.sets.set setNum s1 }
        if ¬ remap then some (tb1.updateLRU setNum w)
        else some { tb1 with entryOccupied := tb1.entryOccupied + 1 }
  else none

/-- Translation of TagBuffer::clearTagBuffer: entry_occupied drops to 0
and every entry of every set is reset to remap false, tag 0, lru equal
to the way index. -/
def TagBuffer.clearTagBuffer (tb : TagBuffer) : TagBuffer :=
  { tb with entryOccupied := 0,
            sets := List.replicate tb.numSets
              ((List.range tb.numWays).map fun j => { tag := 0, remap := false, lru := j }) }

/-- Number of entries of one set whose remap flag is raised. -/
def tbCountSet (s : List TagBufferEntry) : Nat :=
  (s.filter fun e => e.remap).length

/-- Number of entries of the whole table whose remap flag is raised. -/
def TagBuffer.countRemap (tb : TagBuffer) : Nat :=
  (tb.sets.map tbCountSet).sum

/-- Occupancy invariant of the spec: entry_occupied equals the number
of remap-marked entries. -/
def TagBuffer.occInv (tb : TagBuffer) : Prop :=
  tb.entryOccupied = tb.countRemap

instance (tb : TagBuffer) : Decidable tb.occInv :=
  inferInstanceAs (Decidable (_ = _))

/-! ### Page mapper (mc.cpp lines 223-274) -/

/-- Page-mapping scheme selected by sys.mem.pagemap_scheme. -/
inductive PageMapScheme where
  | identical
  | johnny
  | random
deriving DecidableEq, Repr

/-- Multiplier of the glibc drand48 linear congruential generator. -/
def drandA : Nat := 0x5DEECE66D

/-- Additive constant of the glibc drand48 generator. -/
def drandC : Nat := 0xB

/-- Translation of srand48_r seeding: the 48-bit state becomes the low
32 bits of the seed shifted left by 16, with low bits 0x330E. -/
def srand48St (seed : Nat) : Nat :=
  ((seed % 2 ^ 32) <<< 16) ||| 0x330E

/-- One step of the drand48 generator on the 48-bit state. -/
def drandNext (x : Nat) : Nat :=
  (drandA * x + drandC) % 2 ^ 48

/-- Page-mapper state: the MemoryController fields driving mapPage. -/
structure PageMapSt where
  scheme : PageMapScheme
  extBits : Nat
  pageBits : Nat
  tlb : List (Nat × Nat)
  existPgnum : List Nat
  johnnyPtr : Nat
  drandX : Nat
deriving DecidableEq, Repr

/-- Rejection loop of the Random branch of mapPage: lrand48_r draws
(the new state's top 31 bits), the draw is masked, and draws already
in _exist_pgnum are rejected.  Fuel bounds the do-while loop; none
models non-termination of the C++ loop. -/
def randomDraw (exist : List Nat) (mask : Nat) : Nat → Nat → Option (Nat × Nat)
  | _, 0 => none
  | x, fuel + 1 =>
    let x1 := drandNext x
    let pg := (x1 >>> 17) &&& mask
    if pg ∈ exist then randomDraw exist mask x1 fuel else some (pg, x1)

/-- Physical line address assembled at the end of mapPage:
(pgnum shifted to the page position) or-ed with the in-page offset of
the virtual line address. -/
def pLineOf (pageBits pgnum vLineAddr : Nat) : Nat :=
  (pgnum <<< (pageBits - 6)) ||| (vLineAddr &&& (2 ^ (pageBits - 6) - 1))

/-- Translation of MemoryController::mapPage.  Identical mode masks the
line address; Johnny mode hands out the monotone pointer and advances
it under the wrap mask without consulting _exist_pgnum; Random mode
runs the rejection loop.  Returns the physical line address and the
updated mapper state. -/
def mapPage (fuel : Nat) (st : PageMapSt) (vLineAddr : Nat) : Option (Nat × PageMapSt) :=
  if st.scheme = PageMapScheme.identical then
    some (vLineAddr &&& (2 ^ (st.extBits - 6) - 1), st)
  else
    let vpgnum := vLineAddr >>> (st.pageBits - 6)
    match st.tlb.lookup vpgnum with
    | some pgnum => some (pLineOf st.pageBits pgnum vLineAddr, st)
    | none =>
      match st.scheme with
      | PageMapScheme.johnny =>
        let pgnum := st.johnnyPtr
        let ptr1 := (st.johnnyPtr + 1) &&& (2 ^ (st.extBits - 6) - 1)
        some (pLineOf st.pageBits pgnum vLineAddr,
          { st with johnnyPtr := ptr1, tlb := (vpgnum, pgnum) :: st.tlb,
                    existPgnum := pgnum :: st.existPgnum })
      | PageMapScheme.random =>
        match randomDraw st.existPgnum (2 ^ (st.extBits - 6) - 1) st.drandX fuel with
        | none => none
        | some (pgnum, x1) =>
          some (pLineOf st.pageBits pgnum vLineAddr,
            { st with drandX := x1, tlb := (vpgnum, pgnum) :: st.tlb,
                      existPgnum := pgnum :: st.existPgnum })
      | PageMapScheme.identical => none

/-- Fresh Johnny-mode mapper state (constructor branch of mc.cpp line
224: _johnny_ptr = 0). -/
def johnnyInit (extBits pageBits : Nat) : PageMapSt :=
  { scheme := PageMapScheme.johnny, extBits := extBits, pageBits := pageBits,
    tlb := [], existPgnum := [], johnnyPtr := 0, drandX := 0 }

/-- Fresh Random-mode mapper state; mc.cpp line 227 seeds the PRNG with
the controller object's own address, srand48_r((uint64_t)this, &_buffer),
so the seed argument here is the value of the this pointer. -/
def randomInit (thisAddr extBits pageBits : Nat) : PageMapSt :=
  { scheme := PageMapScheme.random, extBits := extBits, pageBits := pageBits,
    tlb := [], existPgnum := [], johnnyPtr := 0, drandX := srand48St thisAddr }

/-- State after one mapPage call, keeping the old state when the call
fails (Johnny and Identical modes never fail). -/
def pmStep (st : PageMapSt) (v : Nat) : PageMapSt :=
  ((mapPage 1 st v).map Prod.snd).getD st

/-- Johnny-mode run over the first n virtual pages, accessed through
their first line address. -/
def johnnyRun (extBits pageBits n : Nat) : PageMapSt :=
  (List.range n).foldl (fun st i => pmStep st (i <<< (pageBits - 6))) (johnnyInit extBits pageBits)

/-- Run of the mapper over a list of virtual line addresses, failing
when any step fails. -/
def pmRun (fuel : Nat) (st : PageMapSt) : List Nat → Option PageMapSt
  | [] => some st
  | v :: vs =>
    match mapPage fuel st v with
    | none => none
    | some (_, st1) => pmRun fuel st1 vs

/-- Injectivity invariant of the page map together with the coherence
fact making Random-mode rejection sound: every mapped physical page is
recorded in _exist_pgnum, and no physical page appears twice. -/
def PageMapInv (st : PageMapSt) : Prop :=
  (∀ p ∈ st.tlb, p.2 ∈ st.existPgnum) ∧ (st.tlb.map Prod.snd).Nodup

/-! ### MemoryController::access (mc.cpp lines 276-317) -/

/-- MemoryController state around one access: the page mapper, the
request counter, the bandwidth-balance switch with its step length, and
the scheme's own state (left abstract: the controller owns exactly one
scheme of unknown variant). -/
structure MCState (σ : Type) where
  pm : PageMapSt
  numRequests : Nat
  bwBalance : Bool
  stepLength : Nat
  schemeSt : σ
deriving Repr

/-- Translation of MemoryController::access.  The request state update
comes first; PUTS returns the request cycle immediately; otherwise the
request counter advances, the address is remapped, the scheme access
runs, the virtual address is restored, and the scheme period runs at
step boundaries when bwBalance is on.  The trace-file append is pure
file output and is not modelled.  Returns the response cycle, the
coherence state written through req.state, the new controller state
and the device accesses issued. -/
def mcAccess {σ : Type}
    (schemeFn : MemReq → σ → Nat × σ × List DevEvent)
    (periodFn : MemReq → σ → σ × List DevEvent)
    (fuel : Nat) (s : MCState σ) (req : MemReq) :
    Option (Nat × MESIState × MCState σ × List DevEvent) :=
  let wrState : MESIState :=
    match req.type with
    | AccessKind.puts => MESIState.I
    | AccessKind.putx => MESIState.I
    | AccessKind.gets => if req.noexcl then MESIState.S else MESIState.E
    | AccessKind.getx => MESIState.M
  if req.type = AccessKind.puts then some (req.cycle, wrState, s, [])
  else
    match mapPage fuel s.pm req.lineAddr with
    | none => none
    | some (pLineAddr, pm1) =>
      let out := schemeFn { req with lineAddr := pLineAddr } s.schemeSt
      let numReq := s.numRequests + 1
      let later :=
        if s.bwBalance ∧ numReq % s.stepLength = 0 then periodFn req out.2.1
        else (out.2.1, [])
      some (out.1, wrState,
        { s with pm := pm1, numRequests := numReq, schemeSt := later.1 },
        out.2.2 ++ later.2)

/-! ### NDC scheme (ndc.h address codec, ndc.cpp access) -/

/-- Per-access counter deltas shared by the scheme models. -/
structure SchemeCounters where
  loadHit : Nat
  loadMiss : Nat
  storeHit : Nat
  storeMiss : Nat
  cleanEvict : Nat
  dirtyEvict : Nat
  tagLoad : Nat
  tagStore : Nat
  placementCnt : Nat
  hitStep : Nat
  missStep : Nat
  mcBw : Nat
  extBw : Nat
deriving DecidableEq, Repr

/-- All-zero counter deltas. -/
def SchemeCounters.zero : SchemeCounters :=
  { loadHit := 0, loadMiss := 0, storeHit := 0, storeMiss := 0, cleanEvict := 0,
    dirtyEvict := 0, tagLoad := 0, tagStore := 0, placementCnt := 0, hitStep := 0,
    missStep := 0, mcBw := 0, extBw := 0 }

/-- Outcome of one scheme access: the returned data-ready cycle, the
tag array afterwards, the device accesses issued, and the counter
deltas. -/
structure AccessResult where
  dataReadyCycle : Nat
  cache : TagArray
  events : List DevEvent
  counters : SchemeCounters

/-- Bit gather of the codec loops of ndc.h: over bit positions below
limit, every position raised in the mask contributes the matching bit
of x to the next output position, stopping after maxBits bits. -/
def extractBits (mask limit maxBits x : Nat) : Nat :=
  ((List.range limit).foldl
    (fun (acc : Nat × Nat) i =>
      if (mask >>> i) &&& 1 = 1 ∧ acc.2 < maxBits then
        (acc.1 ||| (((x >>> i) &&& 1) <<< acc.2), acc.2 + 1)
      else acc)
    (0, 0)).1

/-- Bit scatter of phyAddr2cacheAddr: successive bits of val are placed
at positions below limit, skipping the tag window of skipN positions
from skipLo, stopping after maxBits bits. -/
def placeBits (skipLo skipN limit maxBits val : Nat) : Nat :=
  ((List.range limit).foldl
    (fun (acc : Nat × Nat) i =>
      if acc.2 < maxBits then
        if skipLo ≤ i ∧ i < skipLo + skipN then acc
        else (acc.1 ||| (((val >>> acc.2) &&& 1) <<< i), acc.2 + 1)
      else acc)
    (0, 0)).1

/-- Bit gather of getSetNum: bits of x at positions below limit outside
the tag window are collected into successive output positions, stopping
after maxBits bits. -/
def gatherBits (skipLo skipN limit maxBits x : Nat) : Nat :=
  ((List.range limit).foldl
    (fun (acc : Nat × Nat) i =>
      if acc.2 < maxBits then
        if skipLo ≤ i ∧ i < skipLo + skipN then acc
        else (acc.1 ||| (((x >>> i) &&& 1) <<< acc.2), acc.2 + 1)
      else acc)
    (0, 0)).1

/-- Configuration of NDCScheme computed by its constructor: way count,
set count, the column position, the index/tag/predicate masks and the
derived bit widths. -/
structure NdcConfig where
  numWays : Nat
  numSets : Nat
  coPos : Nat
  indexMask : Nat
  cacheTagMask : Nat
  predTagMask : Nat
  numCacheBits : Nat
  numIndexBits : Nat
  numCacheTagBits : Nat
deriving DecidableEq, Repr

/-- Translation of NDCScheme::phyAddr2cacheAddr: compress the tag bits
to the column position, scatter the index bits around the tag window,
then reattach the line offset and the predicate-tag bits. -/
def phyAddr2cacheAddr (cfg : NdcConfig) (phyAddr : Nat) : Nat :=
  let hexAddr := phyAddr >>> 6
  let tagValue := extractBits cfg.cacheTagMask cfg.numCacheBits cfg.numCacheTagBits hexAddr
  let indexValue := extractBits cfg.indexMask cfg.numCacheBits cfg.numIndexBits hexAddr
  let cacheAddr := (tagValue <<< cfg.coPos) |||
    placeBits cfg.coPos cfg.numCacheTagBits cfg.numCacheBits cfg.numIndexBits indexValue
  (cacheAddr <<< 6) ||| (phyAddr &&& (2 ^ 6 - 1)) ||| (phyAddr &&& (cfg.predTagMask <<< 6))

/-- Translation of NDCScheme::getSetNum. -/
def getSetNum (cfg : NdcConfig) (cacheAddr : Nat) : Nat :=
  gatherBits cfg.coPos cfg.numCacheTagBits cfg.numCacheBits cfg.numIndexBits (cacheAddr >>> 6)

/-- Victim-candidate list of NDCScheme::access: the invalid ways, else
the valid clean ways, else the valid dirty ways, in way order. -/
def ndcCandidates (ways : List Way) : List Nat :=
  let inv := (ways.enum.filter fun p => ¬ p.2.valid).map Prod.fst
  if inv ≠ [] then inv
  else
    let cleanWays := (ways.enum.filter fun p => p.2.valid ∧ ¬ p.2.dirty).map Prod.fst
    if cleanWays ≠ [] then cleanWays
    else (ways.enum.filter fun p => p.2.valid ∧ p.2.dirty).map Prod.fst

/-- Victim chosen by candidates[std::rand() % candidates.size()], the
draw entering as the randVal oracle. -/
def ndcVictimWay (ways : List Way) (randVal : Nat) : Nat :=
  let c := ndcCandidates ways
  c.getD (randVal % c.length) 0

/-- Translation of NDCScheme::access.  The two DRAM devices are opaque
timing oracles; randVal is the std::rand() draw of the victim
tie-break; utilisation logging (pure statistics sets) is not modelled.
Returns the data-ready cycle, the tag array, the issued device
accesses in order and the counter deltas. -/
def ndcAccess (cfg : NdcConfig) (mcdram : Nat → Dram) (ext : Dram) (randVal : Nat)
    (cache : TagArray) (req : MemReq) : AccessResult :=
  let rc := reqClassOf req.type
  let address := req.lineAddr
  let mcdramSelect := 0
  let mcAddress := phyAddr2cacheAddr cfg address
  let setNum := getSetNum cfg mcAddress
  let tag := address
  let ways := cache.getD setNum []
  let hitWay :=
    match ways.findIdx? (fun w => w.valid && w.tag == tag) with
    | some i => i
    | none => cfg.numWays
  match rc with
  | ReqClass.load =>
    let r1 : DevReq :=
      { addr := mcAddress, rtype := AccessKind.gets, cycle := req.cycle, chain := 0, bursts := 4 }
    let c1 := mcdram mcdramSelect r1
    if hitWay < cfg.numWays then
      { dataReadyCycle := c1, cache := cache, events := [⟨DevId.mcdram mcdramSelect, r1⟩],
        counters := { SchemeCounters.zero with loadHit := 1, hitStep := 1, mcBw := 4 } }
    else
      let r2 : DevReq :=
        { addr := address, rtype := AccessKind.gets, cycle := c1, chain := 1, bursts := 4 }
      let dataReady := ext r2
      let victim := ndcVictimWay ways randVal
      let vw := ways.getD victim default
      if vw.valid ∧ vw.dirty then
        let r3 : DevReq :=
          { addr := mcAddress, rtype := AccessKind.gets, cycle := c1, chain := 2, bursts := 4 }
        let r4 : DevReq :=
          { addr := vw.tag, rtype := AccessKind.putx, cycle := c1, chain := 2, bursts := 4 }
        { dataReadyCycle := dataReady,
          cache := setWayAt cache setNum victim { tag := tag, valid := true, dirty := false },
          events := [⟨DevId.mcdram mcdramSelect, r1⟩, ⟨DevId.extDram, r2⟩,
            ⟨DevId.mcdram mcdramSelect, r3⟩, ⟨DevId.extDram, r4⟩],
          counters := { SchemeCounters.zero with
                          loadMiss := 1, missStep := 1, dirtyEvict := 1, mcBw := 8, extBw := 8 } }
      else
        { dataReadyCycle := dataReady,
          cache := setWayAt cache setNum victim { tag := tag, valid := true, dirty := false },
          events := [⟨DevId.mcdram mcdramSelect, r1⟩, ⟨DevId.extDram, r2⟩],
          counters := { SchemeCounters.zero with
                          loadMiss := 1, missStep := 1,
                          cleanEvict := if vw.valid then 1 else 0, mcBw := 4, extBw := 4 } }
  | ReqClass.store =>
    let r1 : DevReq :=
      { addr := mcAddress, rtype := AccessKind.putx, cycle := req.cycle, chain := 0, bursts := 4 }
    let c1 := mcdram mcdramSelect r1
    if hitWay < cfg.numWays then
      let e := ways.getD hitWay default
      { dataReadyCycle := c1,
        cache := setWayAt cache setNum hitWay { e with dirty := true },
        events := [⟨DevId.mcdram mcdramSelect, r1⟩],
        counters := { SchemeCounters.zero with storeHit := 1, hitStep := 1, mcBw := 4 } }
    else
      let victim := ndcVictimWay ways randVal
      let vw := ways.getD victim default
      if vw.valid ∧ vw.dirty then
        let r3 : DevReq :=
          { addr := mcAddress, rtype := AccessKind.gets, cycle := c1, chain := 2, bursts := 4 }
        let r4 : DevReq :=
          { addr := vw.tag, rtype := AccessKind.putx, cycle := c1, chain := 2, bursts := 4 }
        { dataReadyCycle := c1,
          cache := setWayAt cache setNum victim { tag := tag, valid := true, dirty := true },
          events := [⟨DevId.mcdram mcdramSelect, r1⟩, ⟨DevId.mcdram mcdramSelect, r3⟩,
            ⟨DevId.extDram, r4⟩],
          counters := { SchemeCounters.zero with
                          storeMiss := 1, missStep := 1, dirtyEvict := 1, mcBw := 8, extBw := 4 } }
      else
        { dataReadyCycle := c1,
          cache := setWayAt cache setNum victim { tag := tag, valid := true, dirty := true },
          events := [⟨DevId.mcdram mcdramSelect, r1⟩],
          counters := { SchemeCounters.zero with
                          storeMiss := 1, missStep := 1,
                          cleanEvict := if vw.valid then 1 else 0, mcBw := 4 } }

/-! ### Alloy scheme (alloy.cpp access) -/

/-- Configuration snapshot of AlloyCacheScheme for one access: the
geometry, the disable index, and the SRAM-tag option with the LLC
latency it charges. -/
structure AlloyConfig where
  numWays : Nat
  numSets : Nat
  granularity : Nat
  mcdramPerMC : Nat
  dsIndex : Nat
  llcLatency : Nat
  sramTag : Bool
deriving DecidableEq, Repr

/-- Translation of the tag-access block of AlloyCacheScheme::access
(lines 27-38): only a LOAD whose set is at or above ds_index probes
the tags; with sram_tag the request cycle grows by llc_latency, else a
6-burst chain-0 MC-DRAM access runs and a tag-load is counted.
Returns the request cycle afterwards, the events issued, the tagLoad
delta and the MC-DRAM burst delta. -/
def alloyTagProbe (cfg : AlloyConfig) (mcdram : Nat → Dram) (rc : ReqClass)
    (setNum mcdramSelect mcAddress : Nat) (rtype : AccessKind) (cycle : Nat) :
    Nat × List DevEvent × Nat × Nat :=
  if rc = ReqClass.load ∧ cfg.dsIndex ≤ setNum then
    if cfg.sramTag then (cycle + cfg.llcLatency, [], 0, 0)
    else
      let r : DevReq := { addr := mcAddress, rtype := rtype, cycle := cycle, chain := 0, bursts := 6 }
      (mcdram mcdramSelect r, [⟨DevId.mcdram mcdramSelect, r⟩], 1, 6)
  else (cycle, [], 0, 0)

/-- Translation of AlloyCacheScheme::access.  policyPlace is the value
returned by LinePlacementPolicy::handleCacheMiss when consulted (its
definition lives outside the core tree; the spec says it always
replaces way 0, and the claims hold for either value).  Returns the
data-ready cycle, the tag array, the events and the counter deltas. -/
def alloyAccess (cfg : AlloyConfig) (mcdram : Nat → Dram) (ext : Dram) (policyPlace : Bool)
    (cache : TagArray) (req : MemReq) : AccessResult :=
  let rc := reqClassOf req.type
  let address := req.lineAddr
  let mcdramSelect := (address / 64) % cfg.mcdramPerMC
  let mcAddress := (address / 64 / cfg.mcdramPerMC * 64) ||| (address % 64)
  let tag := address / (cfg.granularity / 64)
  let setNum := tag % cfg.numSets
  let ways := cache.getD setNum []
  let w0 := ways.getD 0 default
  let hitWay := if w0.valid ∧ w0.tag = tag ∧ cfg.dsIndex ≤ setNum then 0 else cfg.numWays
  let probe := alloyTagProbe cfg mcdram rc setNum mcdramSelect mcAddress req.type req.cycle
  let cyc1 := probe.1
  let evP := probe.2.1
  let tagLoadD := probe.2.2.1
  let bwP := probe.2.2.2
  if hitWay ≠ cfg.numWays then
    match rc with
    | ReqClass.load =>
      if cfg.sramTag then
        let r : DevReq :=
          { addr := mcAddress, rtype := AccessKind.getx, cycle := cyc1, chain := 0, bursts := 4 }
        let c2 := mcdram mcdramSelect r
        { dataReadyCycle := c2, cache := cache,
          events := evP ++ [⟨DevId.mcdram mcdramSelect, r⟩],
          counters := { SchemeCounters.zero with
                          loadHit := 1, hitStep := 1, tagLoad := tagLoadD, mcBw := bwP + 4 } }
      else
        { dataReadyCycle := cyc1, cache := cache, events := evP,
          counters := { SchemeCounters.zero with
                          loadHit := 1, hitStep := 1, tagLoad := tagLoadD, mcBw := bwP } }
    | ReqClass.store =>
      let r : DevReq :=
        { addr := mcAddress, rtype := AccessKind.putx, cycle := cyc1, chain := 0, bursts := 4 }
      let c2 := mcdram mcdramSelect r
      let e := ways.getD hitWay default
      { dataReadyCycle := c2,
        cache := setWayAt cache setNum hitWay { e with dirty := true },
        events := evP ++ [⟨DevId.mcdram mcdramSelect, r⟩],
        counters := { SchemeCounters.zero with
                        storeHit := 1, hitStep := 1, tagLoad := tagLoadD, mcBw := bwP + 4 } }
  else
    let place := cfg.dsIndex ≤ setNum ∧ policyPlace
    let replaceWay := if place then 0 else 1
    let dataPart : Nat × DevReq :=
      match rc with
      | ReqClass.load =>
        if ¬ cfg.sramTag ∧ cfg.dsIndex ≤ setNum then
          (1, { addr := address, rtype := req.type, cycle := cyc1, chain := 1, bursts := 4 })
        else
          (0, { addr := address, rtype := req.type, cycle := cyc1, chain := 0, bursts := 4 })
      | ReqClass.store =>
        if cfg.numWays ≤ replaceWay then
          (0, { addr := address, rtype := req.type, cycle := cyc1, chain := 0, bursts := 4 })
        else
          (0, { addr := address, rtype := AccessKind.gets, cycle := cyc1, chain := 0, bursts := 4 })
    let rData := dataPart.2
    let c2 := ext rData
    let missCnt : SchemeCounters :=
      if rc = ReqClass.load then
        { SchemeCounters.zero with loadMiss := 1, missStep := 1, tagLoad := tagLoadD,
                                   mcBw := bwP, extBw := 4 }
      else
        { SchemeCounters.zero with storeMiss := 1, missStep := 1, tagLoad := tagLoadD,
                                   mcBw := bwP, extBw := 4 }
    if replaceWay < cfg.numWays then
      let size := if cfg.sramTag then 4 else 6
      let rIns : DevReq :=
        { addr := mcAddress, rtype := AccessKind.putx, cycle := c2, chain := 2, bursts := size }
      let victim := ways.getD replaceWay default
      let cacheOut :=
        setWayAt cache setNum replaceWay
          { tag := tag, valid := true, dirty := req.type = AccessKind.putx }
      if victim.valid then
        if victim.dirty then
          let evictRead : List DevEvent × Nat × Nat :=
            if rc = ReqClass.store ∧ cfg.sramTag then
              let rl : DevReq :=
                { addr := mcAddress, rtype := AccessKind.gets, cycle := c2, chain := 2, bursts := 4 }
              ([⟨DevId.mcdram mcdramSelect, rl⟩], mcdram mcdramSelect rl, 4)
            else ([], c2, 0)
          let rWb : DevReq :=
            { addr := victim.tag, rtype := AccessKind.putx, cycle := evictRead.2.1, chain := 2,
              bursts := 4 }
          { dataReadyCycle := c2, cache := cacheOut,
            events := evP ++ [⟨DevId.extDram, rData⟩, ⟨DevId.mcdram mcdramSelect, rIns⟩] ++
              evictRead.1 ++ [⟨DevId.extDram, rWb⟩],
            counters := { missCnt with
                            tagStore := 1, placementCnt := 1, dirtyEvict := 1,
                            mcBw := missCnt.mcBw + size + evictRead.2.2,
                            extBw := missCnt.extBw + 4 } }
        else
          { dataReadyCycle := c2, cache := cacheOut,
            events := evP ++ [⟨DevId.extDram, rData⟩, ⟨DevId.mcdram mcdramSelect, rIns⟩],
            counters := { missCnt with
                            tagStore := 1, placementCnt := 1, cleanEvict := 1,
                            mcBw := missCnt.mcBw + size } }
      else
        { dataReadyCycle := c2, cache := cacheOut,
          events := evP ++ [⟨DevId.extDram, rData⟩, ⟨DevId.mcdram mcdramSelect, rIns⟩],
          counters := { missCnt with
                          tagStore := 1, placementCnt := 1,
                          mcBw := missCnt.mcBw + size } }
    else
      { dataReadyCycle := c2, cache := cache,
        events := evP ++ [⟨DevId.extDram, rData⟩],
        counters := missCnt }


/-! ### Spec-side victim buffer and concrete sample inputs -/

/-- Modelled from the spec: the NDC VictimBuffer of spec section 4.F
(ring buffer of size S with reservation counter; reserve_slot() fails
when occupied + reserved ≥ S).  No victim buffer exists anywhere in
the source tree; this spec-side definition only serves to compare the
spec claim with the source behaviour. -/
structure SpecVictimBuffer where
  capacity : Nat
  occupied : Nat
  reserved : Nat
deriving DecidableEq, Repr

/-- Modelled from the spec: reserve_slot() of the VictimBuffer, which
succeeds and takes a reservation exactly when occupied + reserved is
below the capacity. -/
def SpecVictimBuffer.reserveSlot (vb : SpecVictimBuffer) : Bool × SpecVictimBuffer :=
  if vb.capacity ≤ vb.occupied + vb.reserved then (false, vb)
  else (true, { vb with reserved := vb.reserved + 1 })

/-- Device returning a fixed latency after the request cycle. -/
def devPlus (k : Nat) : Dram := fun r => r.cycle + k

/-- Sample MC-DRAM family: every device adds 10 cycles. -/
def mcdramSample : Nat → Dram := fun _ => devPlus 10

/-- Sample external DRAM: adds 50 cycles. -/
def extSample : Dram := devPlus 50

/-- Sample NDC configuration: 1 way, 2 sets, default masks of the
constructor for that geometry. -/
def ndcCfgSample : NdcConfig :=
  { numWays := 1, numSets := 2, coPos := 0, indexMask := 1, cacheTagMask := 0,
    predTagMask := 2, numCacheBits := 1, numIndexBits := 1, numCacheTagBits := 0 }

/-- Sample NDC tag array: set 0 holds a valid dirty line with tag 128,
set 1 is empty. -/
def ndcCacheSample : TagArray :=
  [[{ tag := 128, valid := true, dirty := true }],
   [{ tag := 0, valid := false, dirty := false }]]

/-- Sample Alloy configuration: direct mapped, 4 sets, tags in DRAM. -/
def alloyCfgSample : AlloyConfig :=
  { numWays := 1, numSets := 4, granularity := 64, mcdramPerMC := 1, dsIndex := 0,
    llcLatency := 20, sramTag := false }

/-- Sample Alloy tag array: all four sets empty. -/
def alloyCacheSample : TagArray :=
  [[default], [default], [default], [default]]

/-- Sample controller state over a trivial scheme state. -/
def mcStateSample : MCState Unit :=
  { pm := johnnyInit 20 12, numRequests := 0, bwBalance := false, stepLength := 5,
    schemeSt := () }

/-- Sample CHAMO cuckoo-index state: two columns, one level touched. -/
def chamoStSample : ChamoSt :=
  { nrDramCache := 2, nrCxlCache := 2, nrMapLimit := 1,
    dramOverflowRank := [0, 0], dramSelfContainRank := [1, 0],
    isCuckooHash := [[false, false]], hashIdx := [[255, 255]],
    metric := { cuckooCnt := 0, touchedCnt := 1, hashChangeCnt := 0 } }

instance (st : PageMapSt) : Decidable (PageMapInv st) :=
  inferInstanceAs (Decidable (_ ∧ _))


/-! ## Theorems -/

/-- Claim C5 counterexample: the ds_index update of period() is not
clamped above by num_sets: with ds_index 0, delta 5 and num_sets 4 the
code yields 5 while the spec clamp yields 4. -/
theorem claim_C5_counterexample :
    dsIndexUpdate 0 5 ≠ dsIndexUpdateSpec 0 5 4 ∧ 4 < dsIndexUpdate 0 5 := by
  constructor <;> decide

/-- Claim C5 (amended): at the end of period() the new ds_index equals
max(ds_index + delta, 0); it agrees with the spec clamp
clamp(ds_index + delta, 0, num_sets) exactly when ds_index + delta does
not exceed num_sets, and is not clamped above otherwise. -/
theorem claim_C5_ds_index_amended :
    (∀ (ds : Nat) (delta : Int), dsIndexUpdate ds delta = ((ds : Int) + delta).toNat) ∧
    (∀ (ds numSets : Nat) (delta : Int), ((ds : Int) + delta).toNat ≤ numSets →
      dsIndexUpdate ds delta = dsIndexUpdateSpec ds delta numSets) := by
  constructor
  · intro ds delta
    unfold dsIndexUpdate
    split
    · next h => omega
    · rfl
  · intro ds ns delta h
    unfold dsIndexUpdate dsIndexUpdateSpec
    split
    · next h2 => omega
    · next h2 => omega

/-- Claim C5 witness: the amended statement at ds_index 1, delta 2,
num_sets 10. -/
theorem claim_C5_witness : dsIndexUpdate 1 2 = dsIndexUpdateSpec 1 2 10 :=
  claim_C5_ds_index_amended.2 1 10 2 (by decide)

/-- Claim C8 counterexample: with cuckoo count 15, load ratio 95, 4
columns and dram_ratio 4, the clamped value is 4 = dram_ratio, inside
the range the claim allows, yet _UpdateMapLimit dies on its final
strict assert (modelled as none). -/
theorem claim_C8_counterexample :
    updateMapLimit 15 95 4 4 = none ∧ mapLimitSpec 15 95 4 4 = 4 ∧
      1 ≤ mapLimitSpec 15 95 4 4 ∧ mapLimitSpec 15 95 4 4 ≤ 4 := by
  refine ⟨?_, ?_, ?_, ?_⟩ <;> decide

/-- Claim C8 (amended): whenever _UpdateMapLimit survives its asserts
the new map limit equals the spec clamp and is strictly below
dram_ratio; conversely the recomputation succeeds whenever the
pre-clamp ceiling stays at most dram_ratio + 1 and the clamped value
stays strictly below dram_ratio.  The boundary value dram_ratio itself
is fatal. -/
theorem claim_C8_map_limit_amended :
    ∀ cuckooCnt loadShare nrDramCache dramRat : Nat,
      (∀ v, updateMapLimit cuckooCnt loadShare nrDramCache dramRat = some v →
        v = mapLimitSpec cuckooCnt loadShare nrDramCache dramRat ∧ v < dramRat) ∧
      ((cuckooCnt * 100 / loadShare + nrDramCache - 1) / nrDramCache ≤ dramRat + 1 →
        mapLimitSpec cuckooCnt loadShare nrDramCache dramRat < dramRat →
        updateMapLimit cuckooCnt loadShare nrDramCache dramRat =
          some (mapLimitSpec cuckooCnt loadShare nrDramCache dramRat)) := by
  intro c l n d
  constructor
  · intro v hv
    unfold updateMapLimit at hv
    simp only at hv
    split_ifs at hv with h1 h2
    · cases hv
      exact ⟨rfl, h2⟩
  · intro h1 h2
    unfold mapLimitSpec at h2 ⊢
    unfold updateMapLimit
    simp only
    rw [if_pos h1, if_pos h2]

/-- Claim C8 witness: the amended statement at cuckoo count 1, where
the recomputation succeeds with map limit 1. -/
theorem claim_C8_witness :
    updateMapLimit 1 95 4 4 = some (mapLimitSpec 1 95 4 4) :=
  (claim_C8_map_limit_amended 1 95 4 4).2 (by decide) (by decide)

/-- Claim C10: the Random page mapper is seeded from the controller
object's own address ((uint64_t)this), so two runs identical in every
input and configuration but with the controller allocated at 0x1000
versus 0x2000 remap the very first virtual line to different physical
lines: determinism across runs fails. -/
theorem claim_C10_seed_dependence :
    mapPage 1 (randomInit 0x1000 20 12) 0 ≠ mapPage 1 (randomInit 0x2000 20 12) 0 := by
  decide

/-- Claim C2: a PUTS request makes MemoryController::access write I
through req.state and return req.cycle unchanged, leaving the whole
controller state (page map, counters, scheme state) untouched and
issuing no device access, for every scheme. -/
theorem claim_C2_puts_early_return :
    ∀ (σ : Type) (schemeFn : MemReq → σ → Nat × σ × List DevEvent)
      (periodFn : MemReq → σ → σ × List DevEvent) (fuel : Nat) (s : MCState σ) (req : MemReq),
      req.type = AccessKind.puts →
      mcAccess schemeFn periodFn fuel s req = some (req.cycle, MESIState.I, s, []) := by
  intro σ sf pf fuel s req h
  unfold mcAccess
  simp [h]

/-- Claim C2 witness: the theorem applied to a concrete PUTS request
over a trivial scheme. -/
theorem claim_C2_witness :
    mcAccess (fun q (u : Unit) => (q.cycle, u, [])) (fun _ u => (u, [])) 1 mcStateSample
      { lineAddr := 3, type := AccessKind.puts, cycle := 7, noexcl := false } =
      some (7, MESIState.I, mcStateSample, []) :=
  claim_C2_puts_early_return Unit _ _ 1 mcStateSample _ rfl


/-- Helper: a monotone device answers at or after any cycle at or
before the request cycle. -/
theorem dramMono_le {d : Dram} (h : DramMono d) {c : Nat} (r : DevReq) (hc : c ≤ r.cycle) :
    c ≤ d r :=
  Nat.le_trans hc (h r)

/-- Helper: the Alloy tag probe never lowers the request cycle. -/
theorem alloyTagProbe_cycle_le (cfg : AlloyConfig) (mcdram : Nat → Dram) (rc : ReqClass)
    (setNum sel mcA : Nat) (rtype : AccessKind) (cycle : Nat)
    (hm : ∀ i, DramMono (mcdram i)) :
    cycle ≤ (alloyTagProbe cfg mcdram rc setNum sel mcA rtype cycle).1 := by
  unfold alloyTagProbe
  dsimp only
  split
  · split
    · exact Nat.le_add_right _ _
    · dsimp only
      apply dramMono_le (hm sel)
      dsimp only
      exact Nat.le_refl _
  · exact Nat.le_refl _

set_option maxHeartbeats 2000000 in
/-- Claim C1: whenever every DRAM device answers at or after the
request cycle, the cycle returned by NDCScheme::access and by
AlloyCacheScheme::access is at least the incoming req.cycle, and so is
the cycle returned by MemoryController::access for every non-PUTS
request over any scheme with that property. -/
theorem claim_C1_response_cycle_monotone :
    (∀ (cfg : NdcConfig) (mcdram : Nat → Dram) (ext : Dram) (randVal : Nat)
        (cache : TagArray) (req : MemReq), req.type ≠ AccessKind.puts →
        (∀ i, DramMono (mcdram i)) → DramMono ext →
        req.cycle ≤ (ndcAccess cfg mcdram ext randVal cache req).dataReadyCycle) ∧
    (∀ (cfg : AlloyConfig) (mcdram : Nat → Dram) (ext : Dram) (policyPlace : Bool)
        (cache : TagArray) (req : MemReq), req.type ≠ AccessKind.puts →
        (∀ i, DramMono (mcdram i)) → DramMono ext →
        req.cycle ≤ (alloyAccess cfg mcdram ext policyPlace cache req).dataReadyCycle) ∧
    (∀ (σ : Type) (schemeFn : MemReq → σ → Nat × σ × List DevEvent)
        (periodFn : MemReq → σ → σ × List DevEvent) (fuel : Nat) (s : MCState σ)
        (req : MemReq) (out : Nat × MESIState × MCState σ × List DevEvent),
        req.type ≠ AccessKind.puts →
        (∀ (q : MemReq) (st : σ), q.cycle ≤ (schemeFn q st).1) →
        mcAccess schemeFn periodFn fuel s req = some out → req.cycle ≤ out.1) := by
  refine ⟨?_, ?_, ?_⟩
  · intro cfg md ext rand cache req _ hm he
    unfold ndcAccess
    dsimp only
    cases hrc : reqClassOf req.type
    all_goals repeat' split
    all_goals dsimp only
    all_goals
      repeat
        first
          | exact Nat.le_refl _
          | (apply dramMono_le (hm 0); dsimp only)
          | (apply dramMono_le he; dsimp only)
  · intro cfg md ext pl cache req _ hm he
    unfold alloyAccess
    dsimp only
    cases hrc : reqClassOf req.type
    case load =>
      have hdata := alloyTagProbe_cycle_le cfg md ReqClass.load
        ((req.lineAddr / (cfg.granularity / 64)) % cfg.numSets)
        ((req.lineAddr / 64) % cfg.mcdramPerMC)
        ((req.lineAddr / 64 / cfg.mcdramPerMC * 64) ||| (req.lineAddr % 64))
        req.type req.cycle hm
      repeat' split
      all_goals dsimp only
      all_goals
        repeat
          first
            | exact Nat.le_refl _
            | exact hdata
            | (apply dramMono_le (hm _); dsimp only)
            | (apply dramMono_le he; dsimp only)
    case store =>
      have hdata := alloyTagProbe_cycle_le cfg md ReqClass.store
        ((req.lineAddr / (cfg.granularity / 64)) % cfg.numSets)
        ((req.lineAddr / 64) % cfg.mcdramPerMC)
        ((req.lineAddr / 64 / cfg.mcdramPerMC * 64) ||| (req.lineAddr % 64))
        req.type req.cycle hm
      repeat' split
      all_goals dsimp only
      all_goals
        repeat
          first
            | exact Nat.le_refl _
            | exact hdata
            | (apply dramMono_le (hm _); dsimp only)
            | (apply dramMono_le he; dsimp only)
  · intro σ sf pf fuel s req out hput hmono hacc
    unfold mcAccess at hacc
    rw [if_neg hput] at hacc
    cases hmp : mapPage fuel s.pm req.lineAddr with
    | none => rw [hmp] at hacc; cases hacc
    | some pr =>
      rw [hmp] at hacc
      dsimp only at hacc
      cases hacc
      dsimp only
      exact hmono { lineAddr := pr.1, type := req.type, cycle := req.cycle, noexcl := req.noexcl }
        s.schemeSt

/-- Claim C1 witness: the three parts of the theorem at concrete
configurations, requests and fixed-latency devices. -/
theorem claim_C1_witness :
    (5 ≤ (ndcAccess ndcCfgSample mcdramSample extSample 0 ndcCacheSample
      { lineAddr := 0, type := AccessKind.gets, cycle := 5, noexcl := false }).dataReadyCycle) ∧
    (9 ≤ (alloyAccess alloyCfgSample mcdramSample extSample true alloyCacheSample
      { lineAddr := 2, type := AccessKind.getx, cycle := 9, noexcl := false }).dataReadyCycle) := by
  constructor
  · exact claim_C1_response_cycle_monotone.1 ndcCfgSample mcdramSample extSample 0 ndcCacheSample
      { lineAddr := 0, type := AccessKind.gets, cycle := 5, noexcl := false }
      (by decide) (fun i r => Nat.le_add_right _ _) (fun r => Nat.le_add_right _ _)
  · exact claim_C1_response_cycle_monotone.2.1 alloyCfgSample mcdramSample extSample true
      alloyCacheSample { lineAddr := 2, type := AccessKind.getx, cycle := 9, noexcl := false }
      (by decide) (fun i r => Nat.le_add_right _ _) (fun r => Nat.le_add_right _ _)


/-- Helper: a STORE never triggers the Alloy tag-access block. -/
theorem alloyTagProbe_store (cfg : AlloyConfig) (mcdram : Nat → Dram)
    (setNum sel mcA : Nat) (rtype : AccessKind) (cycle : Nat) :
    alloyTagProbe cfg mcdram ReqClass.store setNum sel mcA rtype cycle = (cycle, [], 0, 0) := by
  unfold alloyTagProbe
  rw [if_neg (by simp)]

/-- Claim C9 counterexample: a STORE at or above ds_index with tags in
DRAM issues no tag probe at all: the probe block returns the cycle
unchanged with no device access and no tagLoad, and a concrete STORE
access ends with tagLoad = 0, against the claim that every such STORE
probes the tags. -/
theorem claim_C9_counterexample :
    alloyTagProbe alloyCfgSample mcdramSample ReqClass.store 3 0 192 AccessKind.putx 10 =
      (10, [], 0, 0) ∧
    alloyCfgSample.dsIndex ≤ 3 ∧ alloyCfgSample.sramTag = false ∧
    (alloyAccess alloyCfgSample mcdramSample extSample true alloyCacheSample
      { lineAddr := 2, type := AccessKind.putx, cycle := 9, noexcl := false }).counters.tagLoad =
      0 := by
  refine ⟨?_, ?_, ?_, ?_⟩ <;> decide

set_option maxHeartbeats 2000000 in
/-- Claim C9 (amended): only LOADs at or above ds_index issue the tag
probe: with sram_tag the request cycle grows by llc_latency only, else
a 6-burst chain-0 MC-DRAM access runs and tagLoad counts one; a STORE
never enters the probe block and an access of STORE class never
increments tagLoad. -/
theorem claim_C9_tag_probe_amended :
    (∀ (cfg : AlloyConfig) (mcdram : Nat → Dram) (setNum sel mcA : Nat)
        (rtype : AccessKind) (cycle : Nat), cfg.dsIndex ≤ setNum → cfg.sramTag = true →
        alloyTagProbe cfg mcdram ReqClass.load setNum sel mcA rtype cycle =
          (cycle + cfg.llcLatency, [], 0, 0)) ∧
    (∀ (cfg : AlloyConfig) (mcdram : Nat → Dram) (setNum sel mcA : Nat)
        (rtype : AccessKind) (cycle : Nat), cfg.dsIndex ≤ setNum → cfg.sramTag = false →
        alloyTagProbe cfg mcdram ReqClass.load setNum sel mcA rtype cycle =
          (mcdram sel { addr := mcA, rtype := rtype, cycle := cycle, chain := 0, bursts := 6 },
           [⟨DevId.mcdram sel,
             { addr := mcA, rtype := rtype, cycle := cycle, chain := 0, bursts := 6 }⟩],
           1, 6)) ∧
    (∀ (cfg : AlloyConfig) (mcdram : Nat → Dram) (setNum sel mcA : Nat)
        (rtype : AccessKind) (cycle : Nat),
        alloyTagProbe cfg mcdram ReqClass.store setNum sel mcA rtype cycle =
          (cycle, [], 0, 0)) ∧
    (∀ (cfg : AlloyConfig) (mcdram : Nat → Dram) (ext : Dram) (policyPlace : Bool)
        (cache : TagArray) (req : MemReq), reqClassOf req.type = ReqClass.store →
        (alloyAccess cfg mcdram ext policyPlace cache req).counters.tagLoad = 0) := by
  refine ⟨?_, ?_, ?_, ?_⟩
  · intro cfg md sn sel mcA rt cy h1 h2
    unfold alloyTagProbe
    rw [if_pos ⟨rfl, h1⟩, if_pos h2]
  · intro cfg md sn sel mcA rt cy h1 h2
    unfold alloyTagProbe
    rw [if_pos ⟨rfl, h1⟩, if_neg (by simp [h2])]
  · intro cfg md sn sel mcA rt cy
    exact alloyTagProbe_store cfg md sn sel mcA rt cy
  · intro cfg md ext pl cache req hrc
    unfold alloyAccess
    dsimp only
    rw [hrc, alloyTagProbe_store]
    repeat' split
    all_goals dsimp only
    all_goals rfl

/-- Claim C9 witness: the amended statement at a concrete LOAD probe
with tags in DRAM. -/
theorem claim_C9_witness :
    alloyTagProbe alloyCfgSample mcdramSample ReqClass.load 1 0 64 AccessKind.gets 3 =
      (mcdramSample 0 { addr := 64, rtype := AccessKind.gets, cycle := 3, chain := 0, bursts := 6 },
       [⟨DevId.mcdram 0,
         { addr := 64, rtype := AccessKind.gets, cycle := 3, chain := 0, bursts := 6 }⟩], 1, 6) :=
  claim_C9_tag_probe_amended.2.1 alloyCfgSample mcdramSample 1 0 64 AccessKind.gets 3
    (by decide) rfl


/-- Claim C3 counterexample: on a fresh run a dirty NDC eviction emits
the external write-back inline even though a spec-side VictimBuffer
reservation (capacity 2, empty) would succeed: the source has no
victim buffer at all, so the write-back is never deferred and the
claimed reservation protocol cannot be what the code does. -/
theorem claim_C3_counterexample :
    (SpecVictimBuffer.reserveSlot { capacity := 2, occupied := 0, reserved := 0 }).1 = true ∧
    DevEvent.mk DevId.extDram
        { addr := 128, rtype := AccessKind.putx, cycle := 15, chain := 2, bursts := 4 } ∈
      (ndcAccess ndcCfgSample mcdramSample extSample 0 ndcCacheSample
        { lineAddr := 0, type := AccessKind.gets, cycle := 5, noexcl := false }).events := by
  constructor <;> decide

set_option maxHeartbeats 2000000 in
/-- Claim C3 (amended): in the source NDC scheme every access that
performs a dirty eviction issues the external-DRAM write-back of the
victim tag inline, within the same access (chain mode 2, 4 bursts, at
the cycle answered by the initial MC-DRAM access); there is no victim
buffer, so nothing is ever reserved or drained. -/
theorem claim_C3_inline_writeback :
    ∀ (cfg : NdcConfig) (mcdram : Nat → Dram) (ext : Dram) (randVal : Nat)
      (cache : TagArray) (req : MemReq),
      (ndcAccess cfg mcdram ext randVal cache req).counters.dirtyEvict ≠ 0 →
      DevEvent.mk DevId.extDram
          { addr := ((cache.getD (getSetNum cfg (phyAddr2cacheAddr cfg req.lineAddr)) []).getD
              (ndcVictimWay
                (cache.getD (getSetNum cfg (phyAddr2cacheAddr cfg req.lineAddr)) []) randVal)
              default).tag,
            rtype := AccessKind.putx,
            cycle := mcdram 0
              { addr := phyAddr2cacheAddr cfg req.lineAddr,
                rtype := if reqClassOf req.type = ReqClass.load then AccessKind.gets
                  else AccessKind.putx,
                cycle := req.cycle, chain := 0, bursts := 4 },
            chain := 2, bursts := 4 } ∈
        (ndcAccess cfg mcdram ext randVal cache req).events := by
  intro cfg md ext rand cache req
  unfold ndcAccess
  dsimp only
  cases hrc : reqClassOf req.type
  all_goals repeat' split
  all_goals dsimp only
  all_goals intro h
  all_goals first
    | (exact absurd rfl h)
    | (solve | simp)
    | (solve | simp_all)

/-- Claim C3 witness: the amended statement at the concrete dirty
eviction of the counterexample run. -/
theorem claim_C3_witness :
    DevEvent.mk DevId.extDram
        { addr := 128, rtype := AccessKind.putx, cycle := 15, chain := 2, bursts := 4 } ∈
      (ndcAccess ndcCfgSample mcdramSample extSample 0 ndcCacheSample
        { lineAddr := 0, type := AccessKind.gets, cycle := 5, noexcl := false }).events :=
  claim_C3_inline_writeback ndcCfgSample mcdramSample extSample 0 ndcCacheSample
    { lineAddr := 0, type := AccessKind.gets, cycle := 5, noexcl := false } (by decide)


/-- Helper: reading back a freshly written 2D entry. -/
theorem get2D_set2D {α : Type} (xss : List (List α)) (i j : Nat) (e d : α)
    (hi : i < xss.length) (hj : j < (xss.getD i []).length) :
    get2D (set2D xss i j e) i j d = e := by
  unfold get2D set2D
  rw [List.getD_eq_getElem?_getD (xss.set i ((xss.getD i []).set j e)) i,
    List.getElem?_set_self hi, Option.getD_some,
    List.getD_eq_getElem?_getD, List.getElem?_set_self hj, Option.getD_some]

/-- Helper: a successful _HashIdxToAddr records the requested hash
index and returns the address that index denotes. -/
theorem hashIdxToAddr_spec (s : ChamoSt) (col level t addr : Nat) (s1 : ChamoSt)
    (h : hashIdxToAddr s col level t = some (addr, s1)) :
    get2D s1.hashIdx level col 255 = t ∧
    (t = 0 → addr = col) ∧
    (t = 1 → addr = (col + 1) % s.nrDramCache) ∧
    (t = 2 → addr = XXHash (col + level * s.nrDramCache) % s.nrDramCache) := by
  unfold hashIdxToAddr at h
  dsimp only at h
  split at h
  case isFalse => cases h
  case isTrue hb =>
    split at h
    case h_1 => cases h
    case h_2 a0 sA heq =>
      split at h
      case isFalse => cases h
      case isTrue hcnt =>
        split at h
        case isFalse => cases h
        case isTrue hb2 =>
          have hidx : get2D s1.hashIdx level col 255 = t ∧ a0 = addr := by
            split at h
            case isTrue =>
              injection h with h1
              injection h1 with ha hs
              subst hs
              refine ⟨?_, ha⟩
              dsimp only
              exact get2D_set2D _ _ _ _ _ hb2.1 hb2.2
            case isFalse hneq =>
              injection h with h1
              injection h1 with ha hs
              subst hs
              exact ⟨not_not.mp hneq, ha⟩
          obtain ⟨hidx1, rfl⟩ := hidx
          refine ⟨hidx1, ?_, ?_, ?_⟩
          · intro ht
            subst ht
            rw [show nextLineHash s.nrDramCache col 0 = some col from rfl] at heq
            rw [if_pos (Or.inl rfl)] at heq
            simp only [Option.map_some'] at heq
            injection heq with heq1
            injection heq1 with ha2 hs2
            exact ha2.symm
          · intro ht
            subst ht
            rw [if_pos (Or.inr rfl)] at heq
            rw [show nextLineHash s.nrDramCache col 1 = some ((col + 1) % s.nrDramCache)
              from rfl] at heq
            simp only [Option.map_some'] at heq
            injection heq with heq1
            injection heq1 with ha2 hs2
            exact ha2.symm
          · intro ht
            subst ht
            rw [if_neg (by decide), if_pos rfl] at heq
            split at heq
            case isFalse => cases heq
            case isTrue hcxl =>
              injection heq with heq1
              injection heq1 with ha2 hs2
              exact ha2.symm

set_option maxHeartbeats 1000000 in
/-- Claim C7: in the CHAMO cuckoo index, every successful access to a
touched (level, column) entry records the target hash index given by
the spec trichotomy: index 1 when base_rank is at most the overflow
rank of column (col+1) mod nr_dram_cache, else index 0 when base_rank
minus that overflow rank is at most the column's self-contain rank,
else index 2; and the produced address is respectively the next line,
the identity, or the XXHash fallback. -/
theorem claim_C7_hash_index_choice :
    ∀ (s : ChamoSt) (baseRank ovfArg selfArg colAddr level addr : Nat) (s1 : ChamoSt),
      rankToAddr s baseRank ovfArg selfArg colAddr level = some (addr, s1) →
      get2D s1.hashIdx level colAddr 255 =
        targetHashIdxSpec baseRank
          (s.dramOverflowRank.getD ((colAddr + 1) % s.nrDramCache) 0)
          (s.dramSelfContainRank.getD colAddr 0) ∧
      (targetHashIdxSpec baseRank
          (s.dramOverflowRank.getD ((colAddr + 1) % s.nrDramCache) 0)
          (s.dramSelfContainRank.getD colAddr 0) = 1 →
        addr = (colAddr + 1) % s.nrDramCache) ∧
      (targetHashIdxSpec baseRank
          (s.dramOverflowRank.getD ((colAddr + 1) % s.nrDramCache) 0)
          (s.dramSelfContainRank.getD colAddr 0) = 0 → addr = colAddr) ∧
      (targetHashIdxSpec baseRank
          (s.dramOverflowRank.getD ((colAddr + 1) % s.nrDramCache) 0)
          (s.dramSelfContainRank.getD colAddr 0) = 2 →
        addr = XXHash (colAddr + level * s.nrDramCache) % s.nrDramCache) := by
  intro s base ovf selfR col level addr s1 h
  unfold rankToAddr at h
  dsimp only at h
  split at h
  case isFalse => cases h
  case isTrue hb =>
    split at h
    case h_1 => cases h
    case h_2 t heq =>
      have hspec := hashIdxToAddr_spec s col level t addr s1 h
      split at heq
      case isTrue hc1 =>
        split at heq
        case isFalse => cases heq
        case isTrue hassert =>
          injection heq with ht
          subst ht
          unfold targetHashIdxSpec
          rw [if_pos hc1]
          exact ⟨hspec.1, fun _ => hspec.2.2.1 rfl, fun hcon => absurd hcon (by decide),
            fun hcon => absurd hcon (by decide)⟩
      case isFalse hc1 =>
        split at heq
        case isTrue hc2 =>
          split at heq
          case isFalse => cases heq
          case isTrue hassert2 =>
            injection heq with ht
            subst ht
            unfold targetHashIdxSpec
            rw [if_neg hc1, if_pos hc2]
            exact ⟨hspec.1, fun hcon => absurd hcon (by decide), fun _ => hspec.2.1 rfl,
              fun hcon => absurd hcon (by decide)⟩
        case isFalse hc2 =>
          injection heq with ht
          subst ht
          unfold targetHashIdxSpec
          rw [if_neg hc1, if_neg hc2]
          exact ⟨hspec.1, fun hcon => absurd hcon (by decide), fun hcon => absurd hcon (by decide),
            fun _ => hspec.2.2.2 rfl⟩

/-- Claim C7 witness: the trichotomy at a concrete touched entry where
the self-contain branch (index 0) is selected. -/
theorem claim_C7_witness :
    get2D ((rankToAddr chamoStSample 1 0 1 0 0).getD (0, chamoStSample)).2.hashIdx 0 0 255 =
      targetHashIdxSpec 1
        (chamoStSample.dramOverflowRank.getD ((0 + 1) % chamoStSample.nrDramCache) 0)
        (chamoStSample.dramSelfContainRank.getD 0 0) :=
  (claim_C7_hash_index_choice chamoStSample 1 0 1 0 0
    ((rankToAddr chamoStSample 1 0 1 0 0).getD (0, chamoStSample)).1
    ((rankToAddr chamoStSample 1 0 1 0 0).getD (0, chamoStSample)).2 (by decide)).1


/-- Helper: lookup of a present key in a key-tagged map list. -/
theorem lookup_map_self_some {f : Nat → Nat} (l : List Nat) (v : Nat) (hv : v ∈ l) :
    List.lookup v (l.map fun i => (i, f i)) = some (f v) := by
  induction l with
  | nil => cases hv
  | cons a tl ih =>
    by_cases hva : v = a
    · subst hva
      simp [List.lookup]
    · have hba : (v == a) = false := by simp [hva]
      have hvt : v ∈ tl := by
        rcases List.mem_cons.mp hv with rfl | hvt
        · exact absurd rfl hva
        · exact hvt
      simp only [List.map_cons, List.lookup, hba]
      exact ih hvt

/-- Helper: lookup of an absent key in a key-tagged map list. -/
theorem lookup_map_self_none {f : Nat → Nat} (l : List Nat) (v : Nat) (hv : v ∉ l) :
    List.lookup v (l.map fun i => (i, f i)) = none := by
  induction l with
  | nil => rfl
  | cons a tl ih =>
    have hva : v ≠ a := fun hh => hv (hh ▸ List.mem_cons_self a tl)
    have hba : (v == a) = false := by simp [hva]
    simp only [List.map_cons, List.lookup, hba]
    exact ih fun hh => hv (List.mem_cons_of_mem a hh)

/-- Helper: a left shift followed by the same right shift is the
identity on Nat. -/
theorem shl_shr_cancel (a k : Nat) : (a <<< k) >>> k = a := by
  simp [Nat.shiftLeft_eq, Nat.shiftRight_eq_div_pow,
    Nat.mul_div_cancel a (Nat.two_pow_pos k)]

/-- Helper: closed form of the Johnny-mode run over the first n
virtual pages: the i-th fresh page receives physical page
i mod 2^(ext_bits-6), and the pointer wraps silently. -/
theorem johnnyRun_closed (extBits pageBits n : Nat) :
    johnnyRun extBits pageBits n =
      { scheme := PageMapScheme.johnny, extBits := extBits, pageBits := pageBits,
        tlb := (List.range n).reverse.map fun i => (i, i % 2 ^ (extBits - 6)),
        existPgnum := (List.range n).reverse.map fun i => i % 2 ^ (extBits - 6),
        johnnyPtr := n % 2 ^ (extBits - 6), drandX := 0 } := by
  induction n with
  | zero => simp [johnnyRun, johnnyInit]
  | succ n ih =>
    have hstep : johnnyRun extBits pageBits (n + 1) =
        pmStep (johnnyRun extBits pageBits n) (n <<< (pageBits - 6)) := by
      unfold johnnyRun
      rw [List.range_succ, List.foldl_append]
      rfl
    rw [hstep, ih]
    unfold pmStep mapPage
    dsimp only
    split
    case isTrue hid => exact absurd hid (by decide)
    case isFalse hid =>
      rw [shl_shr_cancel, lookup_map_self_none _ _ (by simp)]
      dsimp only
      rw [Nat.and_pow_two_sub_one_eq_mod, Nat.mod_add_mod]
      simp [List.range_succ]


/-- Helper: a successful Random-mode draw is never an already-used
physical page (the do-while rejects members of _exist_pgnum). -/
theorem randomDraw_not_mem (exist : List Nat) (mask : Nat) :
    ∀ (fuel x pg x1 : Nat), randomDraw exist mask x fuel = some (pg, x1) → pg ∉ exist := by
  intro fuel
  induction fuel with
  | zero => intro x pg x1 h; cases h
  | succ n ih =>
    intro x pg x1 h
    unfold randomDraw at h
    dsimp only at h
    split at h
    case isTrue => exact ih _ _ _ h
    case isFalse hnm =>
      injection h with h1
      injection h1 with hpg hx
      subst hpg
      exact hnm

/-- Helper: one Random-mode mapPage call preserves the injectivity
invariant of the page map. -/
theorem mapPage_random_inv (fuel : Nat) (st : PageMapSt) (v a : Nat) (st1 : PageMapSt)
    (hs : st.scheme = PageMapScheme.random) (hinv : PageMapInv st)
    (h : mapPage fuel st v = some (a, st1)) :
    st1.scheme = PageMapScheme.random ∧ PageMapInv st1 := by
  unfold mapPage at h
  rw [if_neg (by simp [hs])] at h
  dsimp only at h
  split at h
  case h_1 pg hlk =>
    injection h with h1
    injection h1 with ha hst
    subst hst
    exact ⟨hs, hinv⟩
  case h_2 hlk =>
    rw [hs] at h
    dsimp only at h
    split at h
    case h_1 => cases h
    case h_2 pg x1 hdraw =>
      injection h with h1
      injection h1 with ha hst
      subst hst
      have hpg : pg ∉ st.existPgnum := randomDraw_not_mem _ _ _ _ _ _ hdraw
      refine ⟨rfl, ?_, ?_⟩
      · intro p hp
        rcases List.mem_cons.mp hp with rfl | hp2
        · exact List.mem_cons_self _ _
        · exact List.mem_cons_of_mem _ (hinv.1 p hp2)
      · dsimp only
        rw [List.map_cons]
        refine List.nodup_cons.mpr ⟨?_, hinv.2⟩
        show pg ∉ List.map Prod.snd st.tlb
        intro hmem
        rcases List.mem_map.mp hmem with ⟨p, hp, hps⟩
        exact hpg (hps ▸ hinv.1 p hp)


/-- Claim C4 counterexample: in Johnny mode with ext_bits 20 the
allocator wraps after 2^14 pages and maps virtual pages 0 and 2^14 to
the same physical page 0, so the map is not injective over the whole
run. -/
theorem claim_C4_counterexample :
    List.lookup 0 (johnnyRun 20 12 (2 ^ 14 + 1)).tlb = some 0 ∧
    List.lookup (2 ^ 14) (johnnyRun 20 12 (2 ^ 14 + 1)).tlb = some 0 ∧
    (0 : Nat) ≠ 2 ^ 14 := by
  rw [johnnyRun_closed]
  dsimp only
  refine ⟨?_, ?_, by decide⟩
  · rw [lookup_map_self_some _ _ (by simp)]
    rw [Nat.zero_mod]
  · rw [lookup_map_self_some _ _ (by simp)]
    rw [Nat.mod_self]

/-- Claim C4 (amended): the Random mapper is injective over any whole
run (each draw colliding with _exist_pgnum is rejected), but the
Johnny mapper is injective only while at most ext_size/64 =
2^(ext_bits-6) distinct virtual pages have been mapped; it never
consults _exist_pgnum, and past that bound its pointer wraps and
reuses physical pages. -/
theorem claim_C4_injectivity_amended :
    (∀ (fuel : Nat) (st : PageMapSt) (vs : List Nat) (st1 : PageMapSt),
      st.scheme = PageMapScheme.random → PageMapInv st →
      pmRun fuel st vs = some st1 → PageMapInv st1) ∧
    (∀ extBits pageBits n : Nat, n ≤ 2 ^ (extBits - 6) →
      (((johnnyRun extBits pageBits n).tlb).map Prod.snd).Nodup) := by
  constructor
  · intro fuel st vs
    induction vs generalizing st with
    | nil =>
      intro st1 hs hinv h
      injection h with h1
      exact h1 ▸ hinv
    | cons v tl ih =>
      intro st1 hs hinv h
      unfold pmRun at h
      split at h
      case h_1 => cases h
      case h_2 a stmid hmp =>
        obtain ⟨hs2, hinv2⟩ := mapPage_random_inv fuel st v a stmid hs hinv hmp
        exact ih stmid st1 hs2 hinv2 h
  · intro extBits pageBits n hn
    rw [johnnyRun_closed]
    dsimp only
    rw [List.map_map]
    have hmap : ((List.range n).reverse.map (Prod.snd ∘ fun i => (i, i % 2 ^ (extBits - 6)))) =
        (List.range n).reverse := by
      have h1 : ∀ i ∈ (List.range n).reverse, (Prod.snd ∘ fun i => (i, i % 2 ^ (extBits - 6))) i
          = id i := by
        intro i hi
        have : i < n := List.mem_range.mp (List.mem_reverse.mp hi)
        simpa using Nat.mod_eq_of_lt (Nat.lt_of_lt_of_le this hn)
      rw [List.map_congr_left h1, List.map_id]
    rw [hmap]
    exact List.nodup_reverse.mpr (List.nodup_range n)

/-- Claim C4 witness: the amended statement on a concrete one-step
Random run and a two-page Johnny run. -/
theorem claim_C4_witness :
    PageMapInv ((pmRun 1 (randomInit 4096 20 12) [0]).getD (randomInit 4096 20 12)) ∧
    (((johnnyRun 20 12 2).tlb).map Prod.snd).Nodup := by
  constructor
  · exact claim_C4_injectivity_amended.1 1 (randomInit 4096 20 12) [0]
      ((pmRun 1 (randomInit 4096 20 12) [0]).getD (randomInit 4096 20 12))
      rfl (by constructor <;> decide) (by decide)
  · exact claim_C4_injectivity_amended.2 20 12 2 (by decide)


/-- Helper: remap count of a cons. -/
theorem tbCountSet_cons (a : TagBufferEntry) (l : List TagBufferEntry) :
    tbCountSet (a :: l) = a.remap.toNat + tbCountSet l := by
  unfold tbCountSet
  rw [List.filter_cons]
  cases hr : a.remap <;> simp <;> omega

/-- Helper: a set with no remap-marked entries counts zero. -/
theorem tbCountSet_no_remap (l : List TagBufferEntry) (h : ∀ e ∈ l, e.remap = false) :
    tbCountSet l = 0 := by
  induction l with
  | nil => rfl
  | cons a tl ih =>
    rw [tbCountSet_cons, h a (List.mem_cons_self _ _),
      ih fun e he => h e (List.mem_cons_of_mem _ he)]
    rfl

/-- Helper: effect of a single-entry overwrite on the remap count. -/
theorem tbCountSet_set (l : List TagBufferEntry) (i : Nat) (e : TagBufferEntry)
    (h : i < l.length) :
    tbCountSet (l.set i e) + ((l.getD i default).remap).toNat =
      tbCountSet l + (e.remap).toNat := by
  induction l generalizing i with
  | nil => cases h
  | cons a tl ih =>
    cases i with
    | zero =>
      simp only [List.set_cons_zero, List.getD_cons_zero, tbCountSet_cons]
      omega
    | succ j =>
      simp only [List.set_cons_succ, List.getD_cons_succ, tbCountSet_cons]
      have := ih j (by simpa using Nat.lt_of_succ_lt_succ h)
      omega

/-- Helper: effect of a single-set overwrite on the table-wide remap
count. -/
theorem sum_counts_set (ss : List (List TagBufferEntry)) (i : Nat)
    (s1 : List TagBufferEntry) (h : i < ss.length) :
    ((ss.set i s1).map tbCountSet).sum + tbCountSet (ss.getD i []) =
      (ss.map tbCountSet).sum + tbCountSet s1 := by
  induction ss generalizing i with
  | nil => cases h
  | cons a tl ih =>
    cases i with
    | zero =>
      simp only [List.set_cons_zero, List.getD_cons_zero, List.map_cons, List.sum_cons]
      omega
    | succ j =>
      simp only [List.set_cons_succ, List.getD_cons_succ, List.map_cons, List.sum_cons]
      have := ih j (by simpa using Nat.lt_of_succ_lt_succ h)
      omega

/-- Helper: the LRU aging map leaves the remap count unchanged. -/
theorem tbCountSet_age (l : List TagBufferEntry) (pivot : Nat) :
    tbCountSet (l.map fun e =>
      if ¬ e.remap ∧ e.lru < pivot then { e with lru := e.lru + 1 } else e) = tbCountSet l := by
  induction l with
  | nil => rfl
  | cons a tl ih =>
    rw [List.map_cons, tbCountSet_cons, tbCountSet_cons, ih]
    congr 1
    split <;> rfl

/-- Helper: a nonempty getD of a list of lists implies an in-range
index. -/
theorem getD_pos_lt {α : Type} (l : List (List α)) (i : Nat) (h : 0 < (l.getD i []).length) :
    i < l.length := by
  by_contra hc
  push_neg at hc
  rw [List.getD_eq_getElem?_getD, List.getElem?_eq_none hc] at h
  simp at h

/-- Helper: an out-of-range set is the identity. -/
theorem list_set_of_length_le {α : Type} (l : List α) (i : Nat) (a : α) (h : l.length ≤ i) :
    l.set i a = l := by
  induction l generalizing i with
  | nil => rfl
  | cons x tl ih =>
    cases i with
    | zero => cases h
    | succ j =>
      rw [List.set_cons_succ]
      rw [ih j (by simpa using Nat.le_of_succ_le_succ h)]

/-- Helper: replacing one set by one with the same remap count leaves
the table-wide count unchanged. -/
theorem sum_counts_set_eq (ss : List (List TagBufferEntry)) (i : Nat)
    (s1 : List TagBufferEntry) (hcount : tbCountSet s1 = tbCountSet (ss.getD i [])) :
    ((ss.set i s1).map tbCountSet).sum = (ss.map tbCountSet).sum := by
  by_cases h : i < ss.length
  · have := sum_counts_set ss i s1 h
    omega
  · rw [list_set_of_length_le _ _ _ (Nat.le_of_not_lt h)]

/-- Helper: overwriting an entry with one of the same remap flag
leaves the set count unchanged. -/
theorem tbCountSet_set_same_remap (l : List TagBufferEntry) (w : Nat) (e : TagBufferEntry)
    (he : e.remap = (l.getD w default).remap) :
    tbCountSet (l.set w e) = tbCountSet l := by
  by_cases hw : w < l.length
  · have := tbCountSet_set l w e hw
    rw [he] at this
    omega
  · rw [list_set_of_length_le _ _ _ (Nat.le_of_not_lt hw)]

/-- Helper: TagBuffer::updateLRU changes neither the remap count nor
entry_occupied. -/
theorem countRemap_updateLRU (tb : TagBuffer) (sn w : Nat) :
    (tb.updateLRU sn w).countRemap = tb.countRemap ∧
      (tb.updateLRU sn w).entryOccupied = tb.entryOccupied := by
  refine ⟨?_, rfl⟩
  unfold TagBuffer.updateLRU TagBuffer.countRemap
  dsimp only
  apply sum_counts_set_eq
  rw [tbCountSet_set_same_remap]
  · exact tbCountSet_age _ _
  · rfl


/-- Helper: a hit way reported by existInTB is inside the set. -/
theorem existInTB_lt_length (tb : TagBuffer) (tag : Nat)
    (h : tb.existInTB tag < tb.numWays) :
    tb.existInTB tag < (tb.sets.getD (tag % tb.numSets) []).length := by
  unfold TagBuffer.existInTB at h ⊢
  dsimp only at h ⊢
  cases hfind : (tb.sets.getD (tag % tb.numSets) []).findIdx? (fun e => e.tag == tag) with
  | none =>
    rw [hfind] at h
    exact absurd h (lt_irrefl _)
  | some i =>
    rw [hfind] at h
    dsimp only at h ⊢
    obtain ⟨hlen, _⟩ := List.findIdx?_eq_some_iff_getElem.mp hfind
    exact hlen

/-- Helper: any index produced by the replacement scan satisfies any
property holding on all non-remap scan positions. -/
theorem tbReplaceWay_fold_spec (Q : Nat → Prop) :
    ∀ (l : List (Nat × TagBufferEntry)), (∀ x ∈ l, x.2.remap = false → Q x.1) →
    ∀ (acc : Nat × Option Nat), (∀ w, acc.2 = some w → Q w) →
    ∀ w, ((l.foldl (fun acc p =>
        if ¬ p.2.remap ∧ acc.1 ≤ p.2.lru then (p.2.lru, some p.1) else acc) acc)).2 =
        some w → Q w := by
  intro l
  induction l with
  | nil =>
    intro _ acc hacc w hw
    exact hacc w hw
  | cons x tl ih =>
    intro hl acc hacc w hw
    rw [List.foldl_cons] at hw
    refine ih (fun y hy hr => hl y (List.mem_cons_of_mem _ hy) hr) _ ?_ w hw
    intro w2 hw2
    by_cases hc : ¬ x.2.remap ∧ acc.1 ≤ x.2.lru
    · rw [if_pos hc] at hw2
      dsimp only at hw2
      injection hw2 with hw3
      subst hw3
      exact hl x (List.mem_cons_self _ _) (by simpa using hc.1)
    · rw [if_neg hc] at hw2
      exact hacc w2 hw2

/-- Helper: the replacement way chosen by insert is inside the set and
not remap-marked. -/
theorem tbReplaceWay_spec (s : List TagBufferEntry) (w : Nat) (h : tbReplaceWay s = some w) :
    w < s.length ∧ (s.getD w default).remap = false := by
  unfold tbReplaceWay at h
  refine tbReplaceWay_fold_spec (fun i => i < s.length ∧ (s.getD i default).remap = false)
    s.enum ?_ (0, none) (fun w2 hw2 => by cases hw2) w h
  intro x hx hr
  have hmem := List.mem_enum_iff_getElem?.mp hx
  have hlt : x.1 < s.length := by
    by_contra hc
    rw [List.getElem?_eq_none (Nat.le_of_not_lt hc)] at hmem
    cases hmem
  constructor
  · exact hlt
  · rw [List.getD_eq_getElem?_getD, hmem]
    exact hr


/-- Claim C6: for the Banshee TagBuffer, entry_occupied equals the
number of remap-marked entries initially, after every successful
insert (given it held before), and after every clearTagBuffer. -/
theorem claim_C6_tagbuffer_occupancy :
    (∀ tbSize : Nat, (TagBuffer.init tbSize).occInv) ∧
    (∀ (tb : TagBuffer) (tag : Nat) (remap : Bool) (tb1 : TagBuffer),
      tb.occInv → tb.insert tag remap = some tb1 → tb1.occInv) ∧
    (∀ tb : TagBuffer, (tb.clearTagBuffer).occInv) := by
  refine ⟨?_, ?_, ?_⟩
  · intro tbSize
    unfold TagBuffer.occInv TagBuffer.init TagBuffer.countRemap
    dsimp only
    rw [List.map_replicate, List.sum_replicate,
      tbCountSet_no_remap _ (by intro e he; rcases List.mem_map.mp he with ⟨j, _, rfl⟩; rfl)]
    simp
  · intro tb tag remap tb1 hinv hins
    unfold TagBuffer.occInv at hinv ⊢
    have hinv2 : tb.entryOccupied = (tb.sets.map tbCountSet).sum := hinv
    unfold TagBuffer.insert at hins
    dsimp only at hins
    split at hins
    case isFalse => cases hins
    case isTrue hdup =>
      split at hins
      case isTrue hlt =>
        have hilen := existInTB_lt_length tb tag hlt
        have hsn : tag % tb.numSets < tb.sets.length :=
          getD_pos_lt _ _ (Nat.lt_of_le_of_lt (Nat.zero_le _) hilen)
        split at hins
        case isTrue hr =>
          injection hins with h1
          subst h1
          show _ = TagBuffer.countRemap _
          unfold TagBuffer.countRemap
          dsimp only
          have hsum := sum_counts_set tb.sets (tag % tb.numSets)
            ((tb.sets.getD (tag % tb.numSets) []).set (tb.existInTB tag)
              { (tb.sets.getD (tag % tb.numSets) []).getD (tb.existInTB tag) default with
                remap := true }) hsn
          have hset := tbCountSet_set (tb.sets.getD (tag % tb.numSets) [])
            (tb.existInTB tag)
            { (tb.sets.getD (tag % tb.numSets) []).getD (tb.existInTB tag) default with
              remap := true } hilen
          dsimp only at hsum hset
          cases her : ((tb.sets.getD (tag % tb.numSets) []).getD (tb.existInTB tag)
              default).remap
          case false =>
            rw [if_pos (by decide)]
            rw [her] at hset
            simp only [Bool.toNat_false, Bool.toNat_true] at hset
            omega
          case true =>
            rw [if_neg (by decide)]
            rw [her] at hset
            simp only [Bool.toNat_false, Bool.toNat_true] at hset
            omega
        case isFalse hr =>
          split at hins
          case isTrue hnr =>
            injection hins with h1
            subst h1
            have h2 := countRemap_updateLRU tb (tag % tb.numSets) (tb.existInTB tag)
            rw [h2.1, h2.2]
            exact hinv
          case isFalse hnr =>
            injection hins with h1
            subst h1
            exact hinv
      case isFalse hge =>
        split at hins
        case h_1 => cases hins
        case h_2 w hw =>
          obtain ⟨hwlen, hwrm⟩ := tbReplaceWay_spec _ _ hw
          have hsn : tag % tb.numSets < tb.sets.length :=
            getD_pos_lt _ _ (Nat.lt_of_le_of_lt (Nat.zero_le _) hwlen)
          split at hins
          case isTrue hnr =>
            have hrf : remap = false := by simpa using hnr
            injection hins with h1
            subst h1
            have h2 := countRemap_updateLRU
              { tb with
                sets := tb.sets.set (tag % tb.numSets)
                  ((tb.sets.getD (tag % tb.numSets) []).set w
                    { (tb.sets.getD (tag % tb.numSets) []).getD w default with
                      tag := tag, remap := remap }) }
              (tag % tb.numSets) w
            rw [h2.1, h2.2]
            show _ = TagBuffer.countRemap _
            unfold TagBuffer.countRemap
            dsimp only
            rw [sum_counts_set_eq]
            · exact hinv2
            · rw [tbCountSet_set_same_remap]
              rw [hrf, hwrm]
          case isFalse hr =>
            have hrt : remap = true := by simpa using hr
            subst hrt
            injection hins with h1
            subst h1
            show _ = TagBuffer.countRemap _
            unfold TagBuffer.countRemap
            dsimp only
            have hsum := sum_counts_set tb.sets (tag % tb.numSets)
              ((tb.sets.getD (tag % tb.numSets) []).set w
                { (tb.sets.getD (tag % tb.numSets) []).getD w default with
                  tag := tag, remap := true }) hsn
            have hset := tbCountSet_set (tb.sets.getD (tag % tb.numSets) []) w
              { (tb.sets.getD (tag % tb.numSets) []).getD w default with
                tag := tag, remap := true } hwlen
            dsimp only at hsum hset
            rw [hwrm] at hset
            simp only [Bool.toNat_false, Bool.toNat_true] at hset
            omega
  · intro tb
    unfold TagBuffer.occInv TagBuffer.clearTagBuffer TagBuffer.countRemap
    dsimp only
    rw [List.map_replicate, List.sum_replicate,
      tbCountSet_no_remap _ (by intro e he; rcases List.mem_map.mp he with ⟨j, _, rfl⟩; rfl)]
    simp


/-- Claim C6 witness: the invariant after a concrete remap insert into
a fresh 16-entry buffer. -/
theorem claim_C6_witness :
    TagBuffer.occInv (((TagBuffer.init 16).insert 5 true).getD (TagBuffer.init 16)) :=
  claim_C6_tagbuffer_occupancy.2.1 (TagBuffer.init 16) 5 true
    (((TagBuffer.init 16).insert 5 true).getD (TagBuffer.init 16))
    (by decide) (by decide)

end ZSim
